import Mathlib

/-!
Verification of the text-alignment core of genalog: `genalog/text/preprocess.py`,
`genalog/text/lcs.py`, `genalog/text/alignment.py`, `genalog/text/anchor.py` and
`genalog/text/ner_label.py`.

Strings are modelled as `List Char`; Python token lists as `List (List Char)`.
Python exceptions are modelled with `Except`, carrying the message string
(`ValueError`) or a structured error type where the Python code distinguishes
exception classes (`GapCharError` vs `ValueError` in `ner_label.py`).

The one piece of third-party code the aligner calls, `Bio.pairwise2.align.globalcs`,
is not part of the repository; it is modelled from the spec (section 4.3) as a
Needleman-Wunsch dynamic program over integer scores (the repository's float
scores scaled by 10), returning every optimal global alignment in a fixed
deterministic order. All definitions marked `Modelled from the spec` come from the
spec's words; every other definition is translated from the repository source.
-/

abbrev Str := List Char

/-- The single-quote character (ASCII 39). -/
def sqc : Char := Char.ofNat 39

/-! ## preprocess.py -/

/-- Characters treated as whitespace by Python's `str.split()` and by the `\s`
regex class on ASCII input: space, tab, newline, carriage return, vertical tab,
form feed. -/
def isPyWs (c : Char) : Bool :=
  c = ' ' ∨ c = '\t' ∨ c = '\n' ∨ c = '\r' ∨ c = Char.ofNat 11 ∨ c = Char.ofNat 12

/-- Helper for `tokenize`: accumulates the current token in reverse. -/
def tokenizeAux : Str → Str → List Str
  | [], acc => if acc = [] then [] else [acc.reverse]
  | c :: rest, acc =>
    if isPyWs c then
      (if acc = [] then tokenizeAux rest [] else acc.reverse :: tokenizeAux rest [])
    else tokenizeAux rest (c :: acc)

/-- `preprocess.tokenize`: Python `s.split()` - split on runs of whitespace,
dropping empty pieces. -/
def tokenize (s : Str) : List Str := tokenizeAux s []

/-- `preprocess.join_tokens`: `" ".join(tokens)`. -/
def join_tokens (tokens : List Str) : Str := List.intercalate [' '] tokens

/-- `preprocess._is_spacing`: membership in `END_OF_TOKEN = {" ", "\t", "\n"}`. -/
def _is_spacing (c : Char) : Bool := c = ' ' ∨ c = '\t' ∨ c = '\n'

/-! ## lcs.py -/

/-- Helper computing one row of the LCS DP table from the previous row.
`diag` is the previous row's entry one column to the left, `up :: rest` the
remaining previous-row entries, `left` the current row's last computed entry. -/
def lcsRowAux (a : Char) : Nat → List Nat → Nat → Str → List Nat
  | _, _, _, [] => []
  | diag, up :: rest, left, c :: cs =>
    let cell := if a = c then diag + 1 else max up left
    cell :: lcsRowAux a up rest cell cs
  | _, [], _, _ :: _ => []

/-- Helper building the LCS DP table rows 1..m, each from its predecessor. -/
def lcsTableAux (str_n : Str) : Str → List Nat → List (List Nat)
  | [], _ => []
  | a :: ms, prev =>
    let row := 0 :: lcsRowAux a (prev.headD 0) prev.tail 0 str_n
    row :: lcsTableAux str_n ms row

/-- `LCS._construct_dp_table`: the (m+1) x (n+1) table with
`dp[i][j] = 1 + dp[i-1][j-1]` on a character match and
`max dp[i-1][j] dp[i][j-1]` otherwise. -/
def _construct_dp_table (str_m str_n : Str) : List (List Nat) :=
  let row0 := List.replicate (str_n.length + 1) 0
  row0 :: lcsTableAux str_n str_m row0

/-- `LCS._find_lcs_str`, as the fuelled loop of the Python `while m > 0 and n > 0`.
Each iteration decreases `m + n`, so fuel `m + n` is exact; the accumulator `lcs`
receives prepended characters exactly as in the source. On a match the character
is prepended and both indices decrement; otherwise the index of the strictly
greater neighbour cell decrements, the second string's index (`n`) on a tie. -/
def _find_lcs_str_loop (str_m str_n : Str) (dp : List (List Nat)) : Nat → Nat → Nat → Str → Str
  | 0, _, _, lcs => lcs
  | _, 0, _, lcs => lcs
  | _, _+1, 0, lcs => lcs
  | fuel+1, m+1, n+1, lcs =>
    if str_m.getD m ' ' = str_n.getD n ' ' then
      _find_lcs_str_loop str_m str_n dp fuel m n (str_m.getD m ' ' :: lcs)
    else if (dp.getD m []).getD (n+1) 0 > (dp.getD (m+1) []).getD n 0 then
      _find_lcs_str_loop str_m str_n dp fuel m (n+1) lcs
    else
      _find_lcs_str_loop str_m str_n dp fuel (m+1) n lcs

/-- `LCS._find_lcs_str` run from `(m, n) = (len str_m, len str_n)`. -/
def _find_lcs_str (str_m str_n : Str) (dp : List (List Nat)) : Str :=
  _find_lcs_str_loop str_m str_n dp (str_m.length + str_n.length) str_m.length str_n.length []

/-- `LCS(str_m, str_n).get_str()`. -/
def LCS_get_str (str_m str_n : Str) : Str :=
  _find_lcs_str str_m str_n (_construct_dp_table str_m str_n)

/-- Backtrack walk written from the claim's words (C2): on a tie between the
top ("up") and left neighbour cells it prefers the "up" neighbour, decrementing
the first string's index. Used only to compare against the source walk. -/
def lcsClaimTieUpLoop (str_m str_n : Str) (dp : List (List Nat)) : Nat → Nat → Nat → Str → Str
  | 0, _, _, lcs => lcs
  | _, 0, _, lcs => lcs
  | _, _+1, 0, lcs => lcs
  | fuel+1, m+1, n+1, lcs =>
    if str_m.getD m ' ' = str_n.getD n ' ' then
      lcsClaimTieUpLoop str_m str_n dp fuel m n (str_m.getD m ' ' :: lcs)
    else if (dp.getD m []).getD (n+1) 0 ≥ (dp.getD (m+1) []).getD n 0 then
      lcsClaimTieUpLoop str_m str_n dp fuel m (n+1) lcs
    else
      lcsClaimTieUpLoop str_m str_n dp fuel (m+1) n lcs

/-- The claim's backtrack (tie prefers "up") run from `(m, n)`. -/
def lcsClaimTieUp (str_m str_n : Str) : Str :=
  lcsClaimTieUpLoop str_m str_n (_construct_dp_table str_m str_n)
    (str_m.length + str_n.length) str_m.length str_n.length []

/-- Backtrack walk written from the amended claim's words: move toward the
strictly greater neighbour cell; on a tie prefer the left neighbour,
decrementing the second string's index. -/
def lcsSpecTieLeftLoop (str_m str_n : Str) (dp : List (List Nat)) : Nat → Nat → Nat → Str → Str
  | 0, _, _, lcs => lcs
  | _, 0, _, lcs => lcs
  | _, _+1, 0, lcs => lcs
  | fuel+1, m+1, n+1, lcs =>
    if str_m.getD m ' ' = str_n.getD n ' ' then
      lcsSpecTieLeftLoop str_m str_n dp fuel m n (str_m.getD m ' ' :: lcs)
    else if (dp.getD m []).getD (n+1) 0 > (dp.getD (m+1) []).getD n 0 then
      lcsSpecTieLeftLoop str_m str_n dp fuel m (n+1) lcs
    else if (dp.getD (m+1) []).getD n 0 > (dp.getD m []).getD (n+1) 0 then
      lcsSpecTieLeftLoop str_m str_n dp fuel (m+1) n lcs
    else
      lcsSpecTieLeftLoop str_m str_n dp fuel (m+1) n lcs

/-- The amended-claim backtrack (tie prefers "left") run from `(m, n)`. -/
def lcsSpecTieLeft (str_m str_n : Str) : Str :=
  lcsSpecTieLeftLoop str_m str_n (_construct_dp_table str_m str_n)
    (str_m.length + str_n.length) str_m.length str_n.length []

/-! ## alignment.py: scoring constants and the external DP -/

/-- `alignment.GAP_CHAR`. -/
def GAP_CHAR : Char := '@'

/-- `match_reward_fn` from `alignment._align_seg`, with all scores scaled by 10
to integers: match reward 1 -> 10; mismatch against a space
-0.5 - 0.1 -> -6; other mismatch -0.5 -> -5. -/
def match_reward_fn (x y : Char) : Int :=
  if x = y then 10 else if x = ' ' ∨ y = ' ' then -6 else -5

/-- Gap penalty -0.5 scaled by 10; `GAP_PENALTY = GAP_EXT_PENALTY = -0.5`, so the
affine gap model degenerates to a linear per-gap-character cost. -/
def nwGapScore : Int := -5

/-- Cell lookup in a DP table of Ints. -/
def nwCell (tbl : List (List Int)) (i j : Nat) : Int := (tbl.getD i []).getD j 0

/-- Modelled from the spec: one row of the Needleman-Wunsch score table, cell
`(i, j) = max (diag + score) (up + gap) (left + gap)`. -/
def nwRowAux (a : Char) : Int → List Int → Int → Str → List Int
  | _, _, _, [] => []
  | diag, up :: rest, left, c :: cs =>
    let cell := max (diag + match_reward_fn a c) (max (up + nwGapScore) (left + nwGapScore))
    cell :: nwRowAux a up rest cell cs
  | _, [], _, _ :: _ => []

/-- Modelled from the spec: Needleman-Wunsch table rows 1..m. -/
def nwTableAux (noise : Str) : Str → List Int → List (List Int)
  | [], _ => []
  | a :: gs, prev =>
    let h0 := prev.headD 0 + nwGapScore
    let row := h0 :: nwRowAux a (prev.headD 0) prev.tail h0 noise
    row :: nwTableAux noise gs row

/-- Modelled from the spec: row 0 of the table, `H[0][j] = j * gap` (end gaps are
penalized, as `pairwise2` global alignment does by default). -/
def nwFirstRow (n : Nat) : List Int := (List.range (n + 1)).map (fun j => nwGapScore * j)

/-- Modelled from the spec: the full Needleman-Wunsch score table. -/
def nwTable (gt noise : Str) : List (List Int) :=
  nwFirstRow noise.length :: nwTableAux noise gt (nwFirstRow noise.length)

/-- Modelled from the spec: enumerate every optimal global alignment by walking
back from cell `(i, j)`, in the fixed order diagonal, up (gap in the noise
string), left (gap in the ground-truth string). The first argument is fuel; a
walk from `(i, j)` takes at most `i + j` steps, so any fuel at least `i + j`
yields the full enumeration. -/
def nwBacktrack (gt noise : Str) (gap : Char) (tbl : List (List Int)) :
    Nat → Nat → Nat → List (Str × Str)
  | _, 0, 0 => [([], [])]
  | 0, _, _ => []
  | fuel+1, 0, j+1 =>
    (nwBacktrack gt noise gap tbl fuel 0 j).map
      (fun p => (p.1 ++ [gap], p.2 ++ [noise.getD j ' ']))
  | fuel+1, i+1, 0 =>
    (nwBacktrack gt noise gap tbl fuel i 0).map
      (fun p => (p.1 ++ [gt.getD i ' '], p.2 ++ [gap]))
  | fuel+1, i+1, j+1 =>
    let a := gt.getD i ' '
    let b := noise.getD j ' '
    let cur := nwCell tbl (i+1) (j+1)
    let dOpts := if nwCell tbl i j + match_reward_fn a b = cur then
        (nwBacktrack gt noise gap tbl fuel i j).map
          (fun p => (p.1 ++ [a], p.2 ++ [b])) else []
    let uOpts := if nwCell tbl i (j+1) + nwGapScore = cur then
        (nwBacktrack gt noise gap tbl fuel i (j+1)).map
          (fun p => (p.1 ++ [a], p.2 ++ [gap])) else []
    let lOpts := if nwCell tbl (i+1) j + nwGapScore = cur then
        (nwBacktrack gt noise gap tbl fuel (i+1) j).map
          (fun p => (p.1 ++ [gap], p.2 ++ [b])) else []
    dOpts ++ uOpts ++ lOpts

/-- Modelled from the spec: `alignment._align_seg`, the wrapper around the
external `Bio.pairwise2.align.globalcs`, returning the list of candidate
alignments (each candidate reduced to its aligned-string pair; the score and
start/end fields of the Python tuples are never consulted by the repository). -/
def _align_seg (gt noise : Str) (gap_char : Char) : List (Str × Str) :=
  nwBacktrack gt noise gap_char (nwTable gt noise) (gt.length + noise.length)
    gt.length noise.length

/-! ## alignment.py: candidate selection and align -/

/-- Decimal digits of a natural number, for error-message fidelity. -/
def natToStr (n : Nat) : Str := (toString n).toList

/-- Message of the `ValueError` raised by `_select_alignment_candidates` when the
selected candidate's aligned strings differ in length. -/
def unequalLenMsg (aligned_gt aligned_noise : Str) : Str :=
  "Aligned strings are not equal in length: \naligned_gt: ".toList ++ [sqc] ++ aligned_gt
    ++ [sqc] ++ "\naligned_noise ".toList ++ [sqc] ++ aligned_noise ++ [sqc] ++ "\n".toList

/-- Message of the `ValueError` raised by `_select_alignment_candidates` when no
candidate has the target token count. -/
def noCandidatesMsg (target total : Nat) : Str :=
  "No alignment candidates with ".toList ++ natToStr target
    ++ " tokens. Total candidates: ".toList ++ natToStr total

/-- The `for alignment in alignments` loop of `_select_alignment_candidates`:
`none` when the loop falls through without returning or raising. -/
def selectLoop (target : Nat) : List (Str × Str) → Option (Except Str (Str × Str))
  | [] => none
  | a :: rest =>
    if (tokenize a.1).length = target then
      some (if a.1.length ≠ a.2.length then .error (unequalLenMsg a.1 a.2) else .ok a)
    else selectLoop target rest

/-- `alignment._select_alignment_candidates`: return the first candidate whose
aligned ground-truth string re-tokenizes to the target token count, raising if
its two strings differ in length; raise when no candidate qualifies. -/
def _select_alignment_candidates (alignments : List (Str × Str))
    (target_num_gt_tokens : Nat) : Except Str (Str × Str) :=
  (selectLoop target_num_gt_tokens alignments).getD
    (.error (noCandidatesMsg target_num_gt_tokens alignments.length))

/-- Message of the `ValueError` re-raised by `align`, naming both input strings. -/
def alignWrapMsg (gt noise inner : Str) : Str :=
  "Error with input strings ".toList ++ [sqc] ++ gt ++ [sqc] ++ " and ".toList
    ++ [sqc] ++ noise ++ [sqc] ++ ": \n".toList ++ inner

/-- `alignment.align`: trivial alignments for empty inputs, otherwise the DP
candidates filtered through `_select_alignment_candidates`, errors wrapped with
a message naming both inputs. -/
def align (gt noise : Str) (gap_char : Char) : Except Str (Str × Str) :=
  if gt = [] ∧ noise = [] then .ok ([], [])
  else if gt = [] then .ok (List.replicate noise.length gap_char, noise)
  else if noise = [] then .ok (gt, List.replicate gt.length gap_char)
  else
    match _select_alignment_candidates (_align_seg gt noise gap_char)
        (tokenize gt).length with
    | .ok c => .ok c
    | .error e => .error (alignWrapMsg gt noise e)

/-- Spec-style restatement of `align` on non-empty inputs (for the amended C1):
the first DP candidate whose re-tokenized aligned reference string (gap
characters included) has the original reference token count is returned, after
an equal-length check; with no such candidate the call fails. -/
def alignSpecNW (gt noise : Str) (gap_char : Char) : Except Str (Str × Str) :=
  match (_align_seg gt noise gap_char).find?
      (fun c => decide ((tokenize c.1).length = (tokenize gt).length)) with
  | some c =>
    if c.1.length ≠ c.2.length then .error (alignWrapMsg gt noise (unequalLenMsg c.1 c.2))
    else .ok c
  | none =>
    .error (alignWrapMsg gt noise
      (noCandidatesMsg (tokenize gt).length (_align_seg gt noise gap_char).length))

/-- De-gapping as worded by claim C1: remove every gap character. -/
def degapped (s : Str) (gap_char : Char) : Str := s.filter (fun c => c ≠ gap_char)

/-! ## alignment.py: the alignment parser -/

/-- Fuelled loop of `_find_token_start`; the loop advances at most
`s.length - 1` times, so fuel `s.length` is always enough. -/
def findTokenStartLoop (s : Str) : Nat → Nat → Nat
  | 0, index => index
  | fuel+1, index =>
    if index < s.length - 1 ∧ _is_spacing (s.getD index ' ') then
      findTokenStartLoop s fuel (index + 1)
    else index

/-- `alignment._find_token_start`: first index `>= index` holding a
non-spacing character, never moving past `len s - 1`. The Python bound checks
raise only on inputs the parser never produces (it always searches inside the
whitespace-padded aligned strings). -/
def _find_token_start (s : Str) (index : Nat) : Nat :=
  findTokenStartLoop s s.length index

/-- Fuelled loop of `_find_token_end`. -/
def findTokenEndLoop (s : Str) : Nat → Nat → Nat
  | 0, index => index
  | fuel+1, index =>
    if index < s.length - 1 ∧ ¬ _is_spacing (s.getD index ' ') then
      findTokenEndLoop s fuel (index + 1)
    else index

/-- `alignment._find_token_end`: first index `>= index` holding a spacing
character, never moving past `len s - 1`. -/
def _find_token_end (s : Str) (index : Nat) : Nat :=
  findTokenEndLoop s s.length index

/-- `alignment._find_next_token`. -/
def _find_next_token (s : Str) (start : Nat) : Nat × Nat :=
  let token_start := _find_token_start s start
  (token_start, _find_token_end s token_start)

/-- `alignment._is_valid_token`: false exactly when the token matches
`^\s*{gap_char}*\s*$`, i.e. is whitespace around a (possibly empty) run of gap
characters. -/
def _is_valid_token (token : Str) (gap_char : Char) : Bool :=
  ! ((token.dropWhile isPyWs).dropWhile (fun c => c = gap_char)).all isPyWs

/-- Python list slice `l[s:e]`. -/
def listSlice (l : Str) (s e : Nat) : Str := (l.take e).drop s

/-- State of the `parse_alignment` walk: the two mapping arrays, the two token
indices, and the current token start/end pointers in each padded string. -/
structure ParseSt where
  g2n : List (List Nat)
  n2g : List (List Nat)
  iGt : Nat
  iN : Nat
  sGt : Nat
  eGt : Nat
  sN : Nat
  eN : Nat

/-- Token registration step of `parse_alignment`: when both current tokens are
valid, append each token's index to the other's mapping row. `List.set` out of
range is a no-op; the Python code never indexes out of range here because an
exhausted stream's current token is empty, hence invalid. -/
def registerIfValid (ag an : Str) (gap : Char) (st : ParseSt) : ParseSt :=
  if _is_valid_token (listSlice ag st.sGt st.eGt) gap ∧
     _is_valid_token (listSlice an st.sN st.eN) gap then
    { st with
      g2n := st.g2n.set st.iGt (st.g2n.getD st.iGt [] ++ [st.iN]),
      n2g := st.n2g.set st.iN (st.n2g.getD st.iN [] ++ [st.iGt]) }
  else st

/-- The inner `while tk_end_gt < tk_end_noise` loop (many-gt-to-one-noise case),
fuelled; the Python loop advances `tk_end_gt` strictly while it runs, so any
fuel at least the padded string length is enough. -/
def parseInnerGt (ag an : Str) (gap : Char) : Nat → ParseSt → ParseSt
  | 0, st => st
  | fuel+1, st =>
    if st.eGt < st.eN then
      let st1 := registerIfValid ag an gap st
      let p := _find_next_token ag st.eGt
      parseInnerGt ag an gap fuel { st1 with sGt := p.1, eGt := p.2, iGt := st1.iGt + 1 }
    else st

/-- The inner `while tk_end_gt > tk_end_noise` loop (one-gt-to-many-noise case). -/
def parseInnerN (ag an : Str) (gap : Char) : Nat → ParseSt → ParseSt
  | 0, st => st
  | fuel+1, st =>
    if st.eGt > st.eN then
      let st1 := registerIfValid ag an gap st
      let p := _find_next_token an st.eN
      parseInnerN ag an gap fuel { st1 with sN := p.1, eN := p.2, iN := st1.iN + 1 }
    else st

/-- The outer `while tk_index_gt < total or tk_index_noise < total` loop of
`parse_alignment`, fuelled; every iteration advances at least one token index,
so fuel `total_gt + total_noise + 1` is enough. -/
def parseLoop (ag an : Str) (gap : Char) (tGt tN innerFuel : Nat) : Nat → ParseSt → ParseSt
  | 0, st => st
  | fuel+1, st =>
    if st.iGt < tGt ∨ st.iN < tN then
      if st.eGt = st.eN then
        let st1 := registerIfValid ag an gap st
        let pg := _find_next_token ag st1.eGt
        let pn := _find_next_token an st1.eN
        parseLoop ag an gap tGt tN innerFuel fuel
          { st1 with sGt := pg.1, eGt := pg.2, sN := pn.1, eN := pn.2,
                     iGt := st1.iGt + 1, iN := st1.iN + 1 }
      else if st.eGt < st.eN then
        parseLoop ag an gap tGt tN innerFuel fuel (parseInnerGt ag an gap innerFuel st)
      else
        parseLoop ag an gap tGt tN innerFuel fuel (parseInnerN ag an gap innerFuel st)
    else st

/-- `alignment.parse_alignment`: raise on unequal lengths, then walk the two
whitespace-padded aligned strings and return the two token-index mappings. -/
def parse_alignment (aligned_gt aligned_noise : Str) (gap_char : Char) :
    Except Str (List (List Nat) × List (List Nat)) :=
  if aligned_gt.length ≠ aligned_noise.length then
    .error "Aligned strings are not equal in length".toList
  else
    let total_gt_tokens := (tokenize aligned_gt).length
    let total_noise_tokens := (tokenize aligned_noise).length
    let ag := aligned_gt ++ [' ']
    let an := aligned_noise ++ [' ']
    let pg := _find_next_token ag 0
    let pn := _find_next_token an 0
    let fuel := ag.length + an.length + total_gt_tokens + total_noise_tokens + 4
    let st0 : ParseSt :=
      { g2n := List.replicate total_gt_tokens [], n2g := List.replicate total_noise_tokens [],
        iGt := 0, iN := 0, sGt := pg.1, eGt := pg.2, sN := pn.1, eN := pn.2 }
    let stF := parseLoop ag an gap_char total_gt_tokens total_noise_tokens fuel fuel st0
    .ok (stF.g2n, stF.n2g)

/-! ## anchor.py -/

/-- Lower-casing a token, `tk.lower()` on ASCII input. -/
def strLower (s : Str) : Str := s.map Char.toLower

/-- `anchor.get_unique_words`: tokens whose (case-insensitive by default)
occurrence count is below 2. A qualifying token occurs exactly once, so the
filtered list has no duplicates and represents the Python set faithfully. -/
def get_unique_words (tokens : List Str) (case_sensitive : Bool) : List Str :=
  if case_sensitive then
    tokens.filter (fun tk => tokens.count tk < 2)
  else
    let lows := tokens.map strLower
    tokens.filter (fun tk => lows.count (strLower tk) < 2)

/-- `anchor.segment_len`: total character length of a token list. -/
def segment_len (tokens : List Str) : Nat := (tokens.map List.length).sum

/-- Ordered insertion by the index component. -/
def insertByIdx (x : Str × Nat) : List (Str × Nat) → List (Str × Nat)
  | [] => [x]
  | y :: ys => if x.2 ≤ y.2 then x :: y :: ys else y :: insertByIdx x ys

/-- Insertion sort by the index component; the indices produced by
`get_word_map` are pairwise distinct, so this agrees with Python's stable
`sort(key=lambda x: x[1])`. -/
def sortByIdx : List (Str × Nat) → List (Str × Nat)
  | [] => []
  | x :: xs => insertByIdx x (sortByIdx xs)

/-- `anchor.get_word_map`: pair each unique word with its first index in the
source tokens and sort by that index. -/
def get_word_map (unique_words : List Str) (src_tokens : List Str) : List (Str × Nat) :=
  let word_map := unique_words.map (fun w => (w, src_tokens.indexOf w))
  sortByIdx word_map

/-- The `unique_words_common` intersection computed inside `get_anchor_map`. -/
def commonUniqueWords (gt_tokens ocr_tokens : List Str) : List Str :=
  (get_unique_words gt_tokens false).filter (fun w => w ∈ get_unique_words ocr_tokens false)

/-- `anchor.get_anchor_map`. The `min_anchor_len` parameter is part of the
Python signature (default 2) and is reproduced here exactly as in the source:
it is never read by the body. -/
def get_anchor_map (gt_tokens ocr_tokens : List Str) (min_anchor_len : Nat) :
    List (Str × Nat) × List (Str × Nat) :=
  let unique_words_common := commonUniqueWords gt_tokens ocr_tokens
  if unique_words_common = [] then ([], [])
  else
    let unique_word_map_gt := get_word_map unique_words_common gt_tokens
    let unique_word_map_ocr := get_word_map unique_words_common ocr_tokens
    let unique_words_gt_str := join_tokens (unique_word_map_gt.map (fun p => p.1))
    let unique_words_ocr_str := join_tokens (unique_word_map_ocr.map (fun p => p.1))
    let lcs_str := LCS_get_str unique_words_gt_str unique_words_ocr_str
    let lcs_words := tokenize lcs_str
    let anchor_words := lcs_words.filter (fun w => w ∈ unique_words_common)
    (unique_word_map_gt.filter (fun wc => wc.1 ∈ anchor_words),
     unique_word_map_ocr.filter (fun wc => wc.1 ∈ anchor_words))

/-- `anchor.MAX_ALIGN_SEGMENT_LENGTH`. -/
def MAX_ALIGN_SEGMENT_LENGTH : Nat := 100

/-- Python slice `tokens[s:e]` with `e = None` meaning "to the end". -/
def slicePy (l : List Str) (s : Nat) (e : Option Nat) : List Str :=
  match e with
  | none => l.drop s
  | some e => (l.take e).drop s

/-- Segments of a token list delimited by anchor indices, as built by
`zip(chain([0], anchors), chain(anchors, [None]))` in the source. -/
def segmentsOf (tokens : List Str) (anchors : List Nat) : List (List Str) :=
  ((0 :: anchors).zip (anchors.map some ++ [none])).map (fun p => slicePy tokens p.1 p.2)

/-- Duplicate removal keeping first occurrences. -/
def dedupNatAux (seen : List Nat) : List Nat → List Nat
  | [] => []
  | x :: xs => if x ∈ seen then dedupNatAux seen xs else x :: dedupNatAux (x :: seen) xs

/-- Ordered insertion of a natural number. -/
def insertNat (x : Nat) : List Nat → List Nat
  | [] => [x]
  | y :: ys => if x ≤ y then x :: y :: ys else y :: insertNat x ys

/-- Ascending insertion sort of naturals. -/
def sortNat : List Nat → List Nat
  | [] => []
  | x :: xs => insertNat x (sortNat xs)

/-- Python `sorted(set(l))` for naturals. -/
def sortNatSet (l : List Nat) : List Nat := sortNat (dedupNatAux [] l)

/-- Message of the `ValueError` raised by `find_anchor_recur` on an anchor-count
mismatch. -/
def anchorMismatchMsg : Str := "Unequal number of anchor points across gt and ocr string".toList

/-- Fuel-exhaustion marker for the fuelled recursion; unreachable for the fuel
used by the callers in this file. -/
def fuelExhaustedMsg : Str := "recursion fuel exhausted".toList

/-- `anchor.find_anchor_recur`, fuelled: find anchors, fail on an anchor-count
mismatch, return empty lists when no anchor exists, and recurse (excluding the
leading anchor token) on any segment pair longer than `max_seg_length`, merging
shifted indices; results are deduplicated and sorted as by Python
`sorted(set(...))`. -/
def find_anchor_recur : Nat → List Str → List Str → Nat → Nat → Nat →
    Except Str (List Nat × List Nat)
  | 0, _, _, _, _, _ => .error fuelExhaustedMsg
  | fuel+1, gt_tokens, ocr_tokens, start_pos_gt, start_pos_ocr, max_seg_length =>
    let maps := get_anchor_map gt_tokens ocr_tokens 2
    if maps.1.length ≠ maps.2.length then .error anchorMismatchMsg
    else if maps.1.length = 0 then .ok ([], [])
    else
      let anchor_indices_gt := maps.1.map (fun p => p.2)
      let anchor_indices_ocr := maps.2.map (fun p => p.2)
      let output_gt := anchor_indices_gt.map (fun x => x + start_pos_gt)
      let output_ocr := anchor_indices_ocr.map (fun x => x + start_pos_ocr)
      let seg_start_gt := 0 :: anchor_indices_gt
      let seg_start_ocr := 0 :: anchor_indices_ocr
      let gt_segments := segmentsOf gt_tokens anchor_indices_gt
      let ocr_segments := segmentsOf ocr_tokens anchor_indices_ocr
      let quads := gt_segments.zip (ocr_segments.zip (seg_start_gt.zip seg_start_ocr))
      let step := fun (acc : Except Str (List Nat × List Nat))
                      (q : List Str × List Str × Nat × Nat) =>
        match acc with
        | .error e => .error e
        | .ok r =>
          if segment_len q.1 > max_seg_length ∨ segment_len q.2.1 > max_seg_length then
            match find_anchor_recur fuel (q.1.drop 1) (q.2.1.drop 1)
                (q.2.2.1 + 1) (q.2.2.2 + 1) max_seg_length with
            | .error e => .error e
            | .ok rec =>
              .ok (r.1 ++ rec.1.map (fun x => x + start_pos_gt),
                   r.2 ++ rec.2.map (fun x => x + start_pos_ocr))
          else .ok r
      match quads.foldl step (.ok (output_gt, output_ocr)) with
      | .error e => .error e
      | .ok r => .ok (sortNatSet r.1, sortNatSet r.2)

/-- Per-segment-pair alignment loop of `align_w_anchor`: align each joined
segment pair and keep the non-empty aligned pairs, in order. -/
def alignSegPairs (gap : Char) : List (List Str) → List (List Str) →
    Except Str (List Str × List Str)
  | gseg :: grest, oseg :: orest =>
    match align (join_tokens gseg) (join_tokens oseg) gap with
    | .error e => .error e
    | .ok p =>
      match alignSegPairs gap grest orest with
      | .error e => .error e
      | .ok rest =>
        if p.1 ≠ [] ∧ p.2 ≠ [] then .ok (p.1 :: rest.1, p.2 :: rest.2)
        else .ok (rest.1, rest.2)
  | _, _ => .ok ([], [])

/-- `anchor.align_w_anchor`: split both token streams at the anchors found by
`find_anchor_recur`, align each segment pair, and join the aligned segments
with single spaces. -/
def align_w_anchor (gt ocr : Str) (gap_char : Char) (max_seg_length : Nat) :
    Except Str (Str × Str) :=
  let gt_tokens := tokenize gt
  let ocr_tokens := tokenize ocr
  match find_anchor_recur (gt_tokens.length + ocr_tokens.length + 2)
      gt_tokens ocr_tokens 0 0 max_seg_length with
  | .error e => .error e
  | .ok anchors =>
    match alignSegPairs gap_char (segmentsOf gt_tokens anchors.1)
        (segmentsOf ocr_tokens anchors.2) with
    | .error e => .error e
    | .ok segs => .ok (join_tokens segs.1, join_tokens segs.2)

/-! ## ner_label.py -/

/-- Characters admitted by the label-name group `[a-z|A-Z]` of the label
regexes (note the class includes the pipe character). -/
def isLabelNameChar (c : Char) : Bool :=
  ('a' ≤ c ∧ c ≤ 'z') ∨ ('A' ≤ c ∧ c ≤ 'Z') ∨ c = '|'

/-- Strip Python-regex whitespace from both ends. -/
def stripPyWs (s : Str) : Str := ((s.dropWhile isPyWs).reverse.dropWhile isPyWs).reverse

/-- `ner_label._is_begin_label`: matches `^\s*(B-)([a-z|A-Z]+)\s*$`. -/
def _is_begin_label (label : Str) : Bool :=
  match stripPyWs label with
  | 'B' :: '-' :: rest => rest ≠ [] ∧ rest.all isLabelNameChar
  | _ => false

/-- `ner_label._is_inside_label`: matches `^\s*(I-)([a-z|A-Z]+)\s*$`. -/
def _is_inside_label (label : Str) : Bool :=
  match stripPyWs label with
  | 'I' :: '-' :: rest => rest ≠ [] ∧ rest.all isLabelNameChar
  | _ => false

/-- `ner_label._is_multi_token_label`: prefix-matches `^\s*([B|I]-)([a-z|A-Z]+)\s*`
(the character class `[B|I]` admits `B`, `I` and the pipe). -/
def _is_multi_token_label (label : Str) : Bool :=
  match label.dropWhile isPyWs with
  | i :: '-' :: rest => (i = 'B' ∨ i = 'I' ∨ i = '|') ∧ rest.takeWhile isLabelNameChar ≠ []
  | _ => false

/-- `ner_label._clean_multi_token_label`: `re.sub` of the prefix match with the
two captured groups, removing the whitespace the match consumed. -/
def _clean_multi_token_label (label : Str) : Str :=
  match label.dropWhile isPyWs with
  | i :: '-' :: rest =>
    if (i = 'B' ∨ i = 'I' ∨ i = '|') ∧ rest.takeWhile isLabelNameChar ≠ [] then
      i :: '-' :: (rest.takeWhile isLabelNameChar
        ++ ((rest.dropWhile isLabelNameChar).dropWhile isPyWs))
    else label
  | _ => label

/-- `ner_label._convert_to_begin_label`: rewrite an inside label `I-NAME` to
`B-NAME`; any other label is returned unchanged. -/
def _convert_to_begin_label (label : Str) : Str :=
  if _is_inside_label label then 'B' :: '-' :: (stripPyWs label).drop 2 else label

/-- `ner_label._convert_to_inside_label`: rewrite a begin label `B-NAME` to
`I-NAME`; any other label is returned unchanged. -/
def _convert_to_inside_label (label : Str) : Str :=
  if _is_begin_label label then 'I' :: '-' :: (stripPyWs label).drop 2 else label

/-- `ner_label._is_missing_begin_label`. -/
def _is_missing_begin_label (begin_label inside_label : Str) : Bool :=
  if ¬ _is_inside_label inside_label then false
  else if begin_label ≠ [] then
    _convert_to_begin_label (_clean_multi_token_label inside_label) ≠
      _clean_multi_token_label begin_label
  else true

/-- The scan of `ner_label.correct_ner_labels`, threading the current begin
label (empty list for Python's `""`). -/
def correct_ner_labels_aux : Str → List Str → List Str
  | _, [] => []
  | cur_begin_label, label :: rest =>
    if _is_multi_token_label label then
      if _is_begin_label label then label :: correct_ner_labels_aux label rest
      else if _is_missing_begin_label cur_begin_label label then
        let newLabel := _convert_to_begin_label label
        newLabel :: correct_ner_labels_aux newLabel rest
      else label :: correct_ner_labels_aux cur_begin_label rest
    else label :: correct_ner_labels_aux [] rest

/-- `ner_label.correct_ner_labels`: upgrade orphan inside labels to begin
labels, scanning left to right. -/
def correct_ner_labels (labels : List Str) : List Str := correct_ner_labels_aux [] labels

/-- `ner_label._select_from_multiple_ner_labels`: the first index; only called
on non-empty index lists in the source. -/
def _select_from_multiple_ner_labels (label_indices : List Nat) : Nat :=
  label_indices.headD 0

/-- `ner_label.SPECIAL_CHAR`: the characters of the literal
`" \t\n'\x0b''\x0c''\r'"` - the six whitespace characters and the single quote. -/
def SPECIAL_CHAR : List Char :=
  [' ', '\t', '\n', sqc, Char.ofNat 11, Char.ofNat 12, '\r']

/-- The character set of Python `string.printable`: ASCII 33..126 plus the six
whitespace characters. -/
def pyPrintable : List Char :=
  ((List.range 94).map (fun i => Char.ofNat (33 + i)))
    ++ [' ', '\t', '\n', '\r', Char.ofNat 11, Char.ofNat 12]

/-- `ner_label.GAP_CHAR_SET = set(string.printable) - SPECIAL_CHAR`. -/
def GAP_CHAR_SET : List Char := pyPrintable.filter (fun c => c ∉ SPECIAL_CHAR)

/-- The combined character multiset of both token streams; Python builds the
set of these characters, and only membership in it is ever used. -/
def inputAlphabet (gt_tokens ocr_tokens : List Str) : Str :=
  (gt_tokens ++ ocr_tokens).flatten

/-- `ner_label._find_gap_char_candidates`: the gap-char candidates (the fixed
candidate set minus the input characters) together with the input characters. -/
def _find_gap_char_candidates (gt_tokens ocr_tokens : List Str) : List Char × Str :=
  (GAP_CHAR_SET.filter (fun c => c ∉ inputAlphabet gt_tokens ocr_tokens),
   inputAlphabet gt_tokens ocr_tokens)

/-- Claim C7's candidate description: a printable, non-whitespace character
(ASCII 33..126). -/
def printableNonWs (c : Char) : Bool := 33 ≤ c.toNat ∧ c.toNat ≤ 126

/-- Duplicate removal for characters, keeping first occurrences. -/
def dedupCharAux (seen : List Char) : List Char → List Char
  | [] => []
  | x :: xs => if x ∈ seen then dedupCharAux seen xs else x :: dedupCharAux (x :: seen) xs

/-- Ordered insertion of a character (by code point). -/
def insertChar (x : Char) : List Char → List Char
  | [] => [x]
  | y :: ys => if x ≤ y then x :: y :: ys else y :: insertChar x ys

/-- Ascending insertion sort of characters. -/
def sortChar : List Char → List Char
  | [] => []
  | x :: xs => insertChar x (sortChar xs)

/-- Python `''.join(sorted(set(chars)))`. -/
def sortedCharSet (l : List Char) : Str := sortChar (dedupCharAux [] l)

/-- Errors raised by the label-propagation layer: Python's `ValueError` and the
distinct `ner_label.GapCharError` class. -/
inductive LabelError where
  | valueError : Str → LabelError
  | gapCharError : Str → LabelError
deriving DecidableEq

/-- Message of the `GapCharError` raised when every gap-char candidate occurs in
the input. -/
def gapExhaustedMsg (input_char_set : Str) : Str :=
  "Exhausted all possible GAP_CHAR candidates for alignment.".toList
    ++ " Consider reducing cardinality of the input character set.\n".toList
    ++ "The set of possible GAP_CHAR candidates is: ".toList
    ++ [sqc] ++ sortedCharSet GAP_CHAR_SET ++ [sqc]
    ++ "\nThe set of input character is: ".toList
    ++ [sqc] ++ sortedCharSet input_char_set ++ [sqc]

/-- Message of the `ValueError` raised on a non-atomic token. -/
def atomicTokenMsg (tk : Str) : Str :=
  "Invalid token ".toList ++ [sqc] ++ tk ++ [sqc] ++ ". Tokens must be atomic.".toList

/-- Message of the `GapCharError` raised on a token that is a run of the gap
character. -/
def gapChainMsg (tk : Str) (gap : Char) : Str :=
  "Invalid token ".toList ++ [sqc] ++ tk ++ [sqc]
    ++ ". Tokens cannot be a chain repetition of the GAP_CHAR ".toList
    ++ [sqc] ++ [gap] ++ [sqc]

/-- Message of the `ValueError` raised on an empty or all-whitespace token. -/
def emptyTokenMsg (tk : Str) : Str :=
  "Invalid token ".toList ++ [sqc] ++ tk ++ [sqc]
    ++ ". Tokens cannot be an empty string or a mix of space characters".toList
    ++ " (spaces, tabs, newlines)".toList

/-- Message of the `ValueError` raised when the parsed mapping has a different
token count than the input ground-truth tokens. -/
def mappingCountMsg (mapped expected : Nat) : Str :=
  "Alignment modified number of gt_tokens. aligned_gt_tokens to gt_tokens: ".toList
    ++ natToStr mapped ++ ":".toList ++ natToStr expected
    ++ ". \nCheck alignment.parse_alignment().".toList

/-- Message of the `ValueError` raised on a label/token count mismatch. -/
def labelCountMsg (ntokens nlabels : Nat) : Str :=
  "Unequal number of gt_tokens (".toList ++ natToStr ntokens
    ++ ")to that of gt_labels (".toList ++ natToStr nlabels ++ ")".toList

/-- The token-validation loop of `_propagate_label_to_ocr` over
`gt_tokens + ocr_tokens`: per token, first the atomicity check, then the
validity check, which distinguishes a gap-character run (`GapCharError`, when
the token contains the gap character) from an empty/whitespace token
(`ValueError`). `re.search` of `gap+` succeeds exactly when the token contains
the gap character. -/
def validateTokens : List Str → Char → Option LabelError
  | [], _ => none
  | tk :: rest, gap =>
    if (tokenize tk).length > 1 then some (.valueError (atomicTokenMsg tk))
    else if ¬ _is_valid_token tk gap then
      (if gap ∈ tk then some (.gapCharError (gapChainMsg tk gap))
       else some (.valueError (emptyTokenMsg tk)))
    else validateTokens rest gap

/-- STEP 1 of `_propagate_label_to_ocr`: naive propagation. For every noisy
token whose mapping row is non-empty, take the label of the first mapped
ground-truth token; unmapped noisy tokens contribute nothing. -/
def propagateStep1 (gt_labels : List Str) : List (List Nat) → List Str
  | [] => []
  | rel :: rest =>
    if rel ≠ [] then
      gt_labels.getD (_select_from_multiple_ner_labels rel) []
        :: propagateStep1 gt_labels rest
    else propagateStep1 gt_labels rest

/-- Single write of STEP 2a: convert the label at one noisy index to its inside
form. -/
def applyInside (labels : List Str) (ocr_token_index : Nat) : List Str :=
  labels.set ocr_token_index (_convert_to_inside_label (labels.getD ocr_token_index []))

/-- STEP 2a of `_propagate_label_to_ocr`: for every ground-truth token that has
a begin label and maps to more than one noisy token, convert the labels of the
second and later mapped noisy tokens to inside labels. -/
def propagateStep2a (gt_labels : List Str) (gt_to_ocr : List (List Nat))
    (ocr_labels : List Str) : List Str :=
  (gt_to_ocr.enum).foldl
    (fun labels p =>
      if p.2.length > 1 ∧ _is_begin_label (gt_labels.getD p.1 []) then
        (p.2.drop 1).foldl applyInside labels
      else labels)
    ocr_labels

/-- Tail of `ner_label._propagate_label_to_ocr` after alignment succeeded:
parsing, the mapping-count invariant check, naive propagation (STEP 1),
trailing-begin-label correction (STEP 2a), and orphan-inside-label repair
(STEP 2b). -/
def propagateAligned (gt_labels gt_tokens : List Str) (gap_char : Char)
    (aligned : Str × Str) : Except LabelError (List Str × Str × Str × Char) :=
  match parse_alignment aligned.1 aligned.2 gap_char with
  | .error e => .error (.valueError e)
  | .ok maps =>
    if maps.1.length ≠ gt_tokens.length then
      .error (.valueError (mappingCountMsg maps.1.length gt_tokens.length))
    else
      .ok (correct_ner_labels (propagateStep2a gt_labels maps.1
            (propagateStep1 gt_labels maps.2)),
        aligned.1, aligned.2, gap_char)

/-- `ner_label._propagate_label_to_ocr`: validation, alignment (with or without
anchors), then `propagateAligned`. -/
def _propagate_label_to_ocr (gt_labels gt_tokens ocr_tokens : List Str)
    (gap_char : Char) (use_anchor : Bool) :
    Except LabelError (List Str × Str × Str × Char) :=
  if gt_tokens.length ≠ gt_labels.length then
    .error (.valueError (labelCountMsg gt_tokens.length gt_labels.length))
  else
    match validateTokens (gt_tokens ++ ocr_tokens) gap_char with
    | some e => .error e
    | none =>
      match (if use_anchor then
          align_w_anchor (join_tokens gt_tokens) (join_tokens ocr_tokens) gap_char
            MAX_ALIGN_SEGMENT_LENGTH
        else align (join_tokens gt_tokens) (join_tokens ocr_tokens) gap_char) with
      | .error e => .error (.valueError e)
      | .ok aligned => propagateAligned gt_labels gt_tokens gap_char aligned

/-- Gap-character choice of `propagate_label_to_ocr`: prefer the default
`GAP_CHAR`, otherwise an arbitrary candidate (Python `set.pop()`, modelled as
the first remaining candidate). -/
def chooseGapChar (candidates : List Char) : Char :=
  if GAP_CHAR ∈ candidates then GAP_CHAR else candidates.headD GAP_CHAR

/-- `ner_label.propagate_label_to_ocr`: fail with `GapCharError` when no gap
character is available, otherwise run `_propagate_label_to_ocr` with the chosen
gap character. -/
def propagate_label_to_ocr (gt_labels gt_tokens ocr_tokens : List Str)
    (use_anchor : Bool) : Except LabelError (List Str × Str × Str × Char) :=
  if (_find_gap_char_candidates gt_tokens ocr_tokens).1 = [] then
    .error (.gapCharError (gapExhaustedMsg (_find_gap_char_candidates gt_tokens ocr_tokens).2))
  else
    _propagate_label_to_ocr gt_labels gt_tokens ocr_tokens
      (chooseGapChar (_find_gap_char_candidates gt_tokens ocr_tokens).1) use_anchor

/-! ## Lemmas about the LCS backtrack -/

theorem lcs_loop_tie_left_eq (str_m str_n : Str) (dp : List (List Nat)) :
    ∀ fuel m n lcs, _find_lcs_str_loop str_m str_n dp fuel m n lcs =
      lcsSpecTieLeftLoop str_m str_n dp fuel m n lcs := by
  intro fuel
  induction fuel with
  | zero =>
    intro m n lcs
    match m, n with
    | 0, n => rfl
    | m+1, 0 => rfl
    | m+1, n+1 => rfl
  | succ fuel ih =>
    intro m n lcs
    match m, n with
    | 0, n => rfl
    | m+1, 0 => rfl
    | m+1, n+1 =>
      simp only [_find_lcs_str_loop, lcsSpecTieLeftLoop]
      by_cases hc : str_m.getD m ' ' = str_n.getD n ' '
      · rw [if_pos hc, if_pos hc]; exact ih _ _ _
      · rw [if_neg hc, if_neg hc]
        by_cases h1 : (dp.getD m []).getD (n+1) 0 > (dp.getD (m+1) []).getD n 0
        · rw [if_pos h1, if_pos h1]; exact ih _ _ _
        · rw [if_neg h1, if_neg h1]
          by_cases h2 : (dp.getD (m+1) []).getD n 0 > (dp.getD m []).getD (n+1) 0
          · rw [if_pos h2]; exact ih _ _ _
          · rw [if_neg h2]; exact ih _ _ _

/-! ## Lemmas about candidate selection and align -/

theorem selectLoop_ok (target : Nat) : ∀ (cands : List (Str × Str)) (c : Str × Str),
    selectLoop target cands = some (.ok c) →
    (tokenize c.1).length = target ∧ c.1.length = c.2.length := by
  intro cands
  induction cands with
  | nil => intro c h; simp [selectLoop] at h
  | cons a rest ih =>
    intro c h
    simp only [selectLoop] at h
    by_cases htok : (tokenize a.1).length = target
    · rw [if_pos htok] at h
      by_cases hlen : a.1.length ≠ a.2.length
      · rw [if_pos hlen] at h; simp at h
      · rw [if_neg hlen] at h
        have : a = c := by simpa using h
        subst this
        exact ⟨htok, by omega⟩
    · rw [if_neg htok] at h
      exact ih c h

theorem select_ok (cands : List (Str × Str)) (target : Nat) (c : Str × Str)
    (h : _select_alignment_candidates cands target = .ok c) :
    (tokenize c.1).length = target ∧ c.1.length = c.2.length := by
  unfold _select_alignment_candidates at h
  cases hsl : selectLoop target cands with
  | none => rw [hsl] at h; simp [Option.getD] at h
  | some x =>
    rw [hsl] at h
    simp [Option.getD] at h
    subst h
    exact selectLoop_ok target cands c hsl

theorem align_ok_props (gt noise : Str) (gap_char : Char) (g n : Str)
    (h : align gt noise gap_char = .ok (g, n)) :
    g.length = n.length ∧
      ((gt ≠ [] ∨ noise = []) → (tokenize g).length = (tokenize gt).length) := by
  unfold align at h
  by_cases h1 : gt = [] ∧ noise = []
  · rw [if_pos h1] at h
    have hg : ([] : Str) = g ∧ ([] : Str) = n := by simpa using h
    obtain ⟨hg1, hg2⟩ := hg
    subst hg1; subst hg2
    exact ⟨rfl, fun _ => by rw [h1.1]⟩
  · rw [if_neg h1] at h
    by_cases h2 : gt = []
    · rw [if_pos h2] at h
      have hg : List.replicate noise.length gap_char = g ∧ noise = n := by simpa using h
      obtain ⟨hg1, hg2⟩ := hg
      subst hg1; subst hg2
      refine ⟨by simp, fun hc => ?_⟩
      rcases hc with hc | hc
      · exact absurd h2 hc
      · exact absurd ⟨h2, hc⟩ h1
    · rw [if_neg h2] at h
      by_cases h3 : noise = []
      · rw [if_pos h3] at h
        have hg : gt = g ∧ List.replicate gt.length gap_char = n := by simpa using h
        obtain ⟨hg1, hg2⟩ := hg
        subst hg1; subst hg2
        exact ⟨by simp, fun _ => rfl⟩
      · rw [if_neg h3] at h
        cases hsel : _select_alignment_candidates (_align_seg gt noise gap_char)
            (tokenize gt).length with
        | ok c =>
          rw [hsel] at h
          have hc : c = (g, n) := by simpa using h
          subst hc
          have := select_ok _ _ _ hsel
          exact ⟨this.2, fun _ => this.1⟩
        | error e =>
          rw [hsel] at h
          simp at h

theorem selectLoop_eq_find (target : Nat) : ∀ cands : List (Str × Str),
    selectLoop target cands =
      (cands.find? (fun c => decide ((tokenize c.1).length = target))).map
        (fun a => if a.1.length ≠ a.2.length then .error (unequalLenMsg a.1 a.2)
                  else .ok a) := by
  intro cands
  induction cands with
  | nil => rfl
  | cons a rest ih =>
    simp only [selectLoop, List.find?]
    by_cases h : (tokenize a.1).length = target
    · rw [if_pos h]
      simp [h]
    · rw [if_neg h, show decide ((tokenize a.1).length = target) = false from by simp [h]]
      exact ih

theorem alignWrapMsg_names (gt noise inner : Str) :
    (∃ u v, alignWrapMsg gt noise inner = u ++ gt ++ v) ∧
      (∃ u v, alignWrapMsg gt noise inner = u ++ noise ++ v) := by
  constructor
  · exact ⟨"Error with input strings ".toList ++ [sqc],
      [sqc] ++ " and ".toList ++ [sqc] ++ noise ++ [sqc] ++ ": \n".toList ++ inner,
      by simp [alignWrapMsg]⟩
  · exact ⟨"Error with input strings ".toList ++ [sqc] ++ gt ++ [sqc]
        ++ " and ".toList ++ [sqc],
      [sqc] ++ ": \n".toList ++ inner,
      by simp [alignWrapMsg]⟩

theorem align_eq_alignSpecNW (gt noise : Str) (gap_char : Char)
    (h1 : gt ≠ []) (h2 : noise ≠ []) :
    align gt noise gap_char = alignSpecNW gt noise gap_char := by
  have hno : ¬(gt = [] ∧ noise = []) := fun hc => h1 hc.1
  unfold align alignSpecNW _select_alignment_candidates
  rw [if_neg hno, if_neg h1, if_neg h2, selectLoop_eq_find]
  cases hf : (_align_seg gt noise gap_char).find?
      (fun c => decide ((tokenize c.1).length = (tokenize gt).length)) with
  | none => simp
  | some a =>
    by_cases hlen : a.1.length ≠ a.2.length
    · simp [hlen]
    · have heq : a.1.length = a.2.length := by omega
      simp [hlen, heq]

theorem align_error_names (gt noise : Str) (gap_char : Char)
    (h1 : gt ≠ []) (h2 : noise ≠ []) :
    ∀ m, align gt noise gap_char = .error m →
      (∃ u v, m = u ++ gt ++ v) ∧ (∃ u v, m = u ++ noise ++ v) := by
  intro m h
  have hno : ¬(gt = [] ∧ noise = []) := fun hc => h1 hc.1
  unfold align at h
  rw [if_neg hno, if_neg h1, if_neg h2] at h
  cases hsel : _select_alignment_candidates (_align_seg gt noise gap_char)
      (tokenize gt).length with
  | ok c => rw [hsel] at h; simp at h
  | error e =>
    rw [hsel] at h
    have : alignWrapMsg gt noise e = m := by simpa using h
    subst this
    exact alignWrapMsg_names gt noise e

/-! ## Length preservation through the alignment parser -/

theorem registerIfValid_lens (ag an : Str) (gap : Char) (st : ParseSt) :
    (registerIfValid ag an gap st).g2n.length = st.g2n.length ∧
      (registerIfValid ag an gap st).n2g.length = st.n2g.length := by
  unfold registerIfValid
  split <;> simp

theorem parseInnerGt_lens (ag an : Str) (gap : Char) :
    ∀ fuel st, (parseInnerGt ag an gap fuel st).g2n.length = st.g2n.length ∧
      (parseInnerGt ag an gap fuel st).n2g.length = st.n2g.length := by
  intro fuel
  induction fuel with
  | zero => intro st; exact ⟨rfl, rfl⟩
  | succ fuel ih =>
    intro st
    simp only [parseInnerGt]
    split
    · have h1 := registerIfValid_lens ag an gap st
      have h2 := ih { registerIfValid ag an gap st with
        sGt := (_find_next_token ag st.eGt).1, eGt := (_find_next_token ag st.eGt).2,
        iGt := (registerIfValid ag an gap st).iGt + 1 }
      exact ⟨h2.1.trans h1.1, h2.2.trans h1.2⟩
    · exact ⟨rfl, rfl⟩

theorem parseInnerN_lens (ag an : Str) (gap : Char) :
    ∀ fuel st, (parseInnerN ag an gap fuel st).g2n.length = st.g2n.length ∧
      (parseInnerN ag an gap fuel st).n2g.length = st.n2g.length := by
  intro fuel
  induction fuel with
  | zero => intro st; exact ⟨rfl, rfl⟩
  | succ fuel ih =>
    intro st
    simp only [parseInnerN]
    split
    · have h1 := registerIfValid_lens ag an gap st
      have h2 := ih { registerIfValid ag an gap st with
        sN := (_find_next_token an st.eN).1, eN := (_find_next_token an st.eN).2,
        iN := (registerIfValid ag an gap st).iN + 1 }
      exact ⟨h2.1.trans h1.1, h2.2.trans h1.2⟩
    · exact ⟨rfl, rfl⟩

theorem parseLoop_lens (ag an : Str) (gap : Char) (tGt tN innerFuel : Nat) :
    ∀ fuel st, (parseLoop ag an gap tGt tN innerFuel fuel st).g2n.length = st.g2n.length ∧
      (parseLoop ag an gap tGt tN innerFuel fuel st).n2g.length = st.n2g.length := by
  intro fuel
  induction fuel with
  | zero => intro st; exact ⟨rfl, rfl⟩
  | succ fuel ih =>
    intro st
    simp only [parseLoop]
    split
    · split
      · have h1 := registerIfValid_lens ag an gap st
        have h2 := ih { registerIfValid ag an gap st with
          sGt := (_find_next_token ag (registerIfValid ag an gap st).eGt).1,
          eGt := (_find_next_token ag (registerIfValid ag an gap st).eGt).2,
          sN := (_find_next_token an (registerIfValid ag an gap st).eN).1,
          eN := (_find_next_token an (registerIfValid ag an gap st).eN).2,
          iGt := (registerIfValid ag an gap st).iGt + 1,
          iN := (registerIfValid ag an gap st).iN + 1 }
        exact ⟨h2.1.trans h1.1, h2.2.trans h1.2⟩
      · split
        · have h1 := parseInnerGt_lens ag an gap innerFuel st
          have h2 := ih (parseInnerGt ag an gap innerFuel st)
          exact ⟨h2.1.trans h1.1, h2.2.trans h1.2⟩
        · have h1 := parseInnerN_lens ag an gap innerFuel st
          have h2 := ih (parseInnerN ag an gap innerFuel st)
          exact ⟨h2.1.trans h1.1, h2.2.trans h1.2⟩
    · exact ⟨rfl, rfl⟩

theorem parse_alignment_ok (aligned_gt aligned_noise : Str) (gap_char : Char)
    (h : aligned_gt.length = aligned_noise.length) :
    ∃ m1 m2, parse_alignment aligned_gt aligned_noise gap_char = .ok (m1, m2) ∧
      m1.length = (tokenize aligned_gt).length ∧
      m2.length = (tokenize aligned_noise).length := by
  unfold parse_alignment
  rw [if_neg (by omega)]
  refine ⟨_, _, rfl, ?_, ?_⟩
  · have := parseLoop_lens (aligned_gt ++ [' ']) (aligned_noise ++ [' ']) gap_char
      (tokenize aligned_gt).length (tokenize aligned_noise).length
      ((aligned_gt ++ [' ']).length + (aligned_noise ++ [' ']).length +
        (tokenize aligned_gt).length + (tokenize aligned_noise).length + 4)
      ((aligned_gt ++ [' ']).length + (aligned_noise ++ [' ']).length +
        (tokenize aligned_gt).length + (tokenize aligned_noise).length + 4)
      { g2n := List.replicate (tokenize aligned_gt).length [],
        n2g := List.replicate (tokenize aligned_noise).length [],
        iGt := 0, iN := 0,
        sGt := (_find_next_token (aligned_gt ++ [' ']) 0).1,
        eGt := (_find_next_token (aligned_gt ++ [' ']) 0).2,
        sN := (_find_next_token (aligned_noise ++ [' ']) 0).1,
        eN := (_find_next_token (aligned_noise ++ [' ']) 0).2 }
    simpa using this.1
  · have := parseLoop_lens (aligned_gt ++ [' ']) (aligned_noise ++ [' ']) gap_char
      (tokenize aligned_gt).length (tokenize aligned_noise).length
      ((aligned_gt ++ [' ']).length + (aligned_noise ++ [' ']).length +
        (tokenize aligned_gt).length + (tokenize aligned_noise).length + 4)
      ((aligned_gt ++ [' ']).length + (aligned_noise ++ [' ']).length +
        (tokenize aligned_gt).length + (tokenize aligned_noise).length + 4)
      { g2n := List.replicate (tokenize aligned_gt).length [],
        n2g := List.replicate (tokenize aligned_noise).length [],
        iGt := 0, iN := 0,
        sGt := (_find_next_token (aligned_gt ++ [' ']) 0).1,
        eGt := (_find_next_token (aligned_gt ++ [' ']) 0).2,
        sN := (_find_next_token (aligned_noise ++ [' ']) 0).1,
        eN := (_find_next_token (aligned_noise ++ [' ']) 0).2 }
    simpa using this.2

/-! ## Lemmas about gap-character selection and label propagation -/

theorem validateTokens_gapCharError (gap : Char) : ∀ (tks : List Str) (m : Str),
    validateTokens tks gap = some (.gapCharError m) → ∃ tk ∈ tks, gap ∈ tk := by
  intro tks
  induction tks with
  | nil => intro m h; simp [validateTokens] at h
  | cons tk rest ih =>
    intro m h
    simp only [validateTokens] at h
    by_cases h1 : (tokenize tk).length > 1
    · rw [if_pos h1] at h; simp at h
    · rw [if_neg h1] at h
      by_cases h2 : ¬ _is_valid_token tk gap = true
      · rw [if_pos h2] at h
        by_cases h3 : gap ∈ tk
        · exact ⟨tk, List.mem_cons_self tk rest, h3⟩
        · rw [if_neg h3] at h; simp at h
      · rw [if_neg h2] at h
        obtain ⟨tk2, htk2, hg⟩ := ih m h
        exact ⟨tk2, List.mem_cons_of_mem tk htk2, hg⟩

theorem propagateAligned_no_gapCharError (gt_labels gt_tokens : List Str)
    (gap : Char) (aligned : Str × Str) :
    ∀ m, propagateAligned gt_labels gt_tokens gap aligned ≠
      .error (.gapCharError m) := by
  intro m
  unfold propagateAligned
  cases hp : parse_alignment aligned.1 aligned.2 gap with
  | error e => simp
  | ok maps =>
    by_cases h2 : maps.1.length ≠ gt_tokens.length
    · simp [h2]
    · simp [h2]

theorem propagate_no_gapCharError (gt_labels gt_tokens ocr_tokens : List Str)
    (gap : Char) (use_anchor : Bool)
    (h : gap ∉ (gt_tokens ++ ocr_tokens).flatten) :
    ∀ m, _propagate_label_to_ocr gt_labels gt_tokens ocr_tokens gap use_anchor ≠
      .error (.gapCharError m) := by
  intro m
  unfold _propagate_label_to_ocr
  by_cases h1 : gt_tokens.length ≠ gt_labels.length
  · rw [if_pos h1]; simp
  · rw [if_neg h1]
    cases hv : validateTokens (gt_tokens ++ ocr_tokens) gap with
    | some e =>
      intro hc
      have hc2 : (Except.error e : Except LabelError (List Str × Str × Str × Char)) =
          .error (.gapCharError m) := hc
      have he : e = .gapCharError m := by simpa using hc2
      subst he
      obtain ⟨tk, htk, hg⟩ := validateTokens_gapCharError gap _ m hv
      exact h (List.mem_flatten.mpr ⟨tk, htk, hg⟩)
    | none =>
      cases ha : (if use_anchor then
          align_w_anchor (join_tokens gt_tokens) (join_tokens ocr_tokens) gap
            MAX_ALIGN_SEGMENT_LENGTH
        else align (join_tokens gt_tokens) (join_tokens ocr_tokens) gap) with
      | error e => simp
      | ok aligned => exact propagateAligned_no_gapCharError gt_labels gt_tokens gap aligned m

theorem propagateAligned_ok_gap (gt_labels gt_tokens : List Str)
    (gap : Char) (aligned : Str × Str) (r : List Str × Str × Str × Char)
    (h : propagateAligned gt_labels gt_tokens gap aligned = .ok r) :
    r.2.2.2 = gap := by
  unfold propagateAligned at h
  cases hp : parse_alignment aligned.1 aligned.2 gap with
  | error e => rw [hp] at h; simp at h
  | ok maps =>
    rw [hp] at h
    have h' : (if maps.1.length ≠ gt_tokens.length then
        (Except.error (LabelError.valueError (mappingCountMsg maps.1.length gt_tokens.length)) :
          Except LabelError (List Str × Str × Str × Char))
      else
        .ok (correct_ner_labels (propagateStep2a gt_labels maps.1
              (propagateStep1 gt_labels maps.2)), aligned.1, aligned.2, gap)) = .ok r := h
    by_cases h2 : maps.1.length ≠ gt_tokens.length
    · rw [if_pos h2] at h'; simp at h'
    · rw [if_neg h2] at h'
      have hr : (correct_ner_labels (propagateStep2a gt_labels maps.1
            (propagateStep1 gt_labels maps.2)), aligned.1, aligned.2, gap) = r := by
        simpa using h'
      rw [← hr]

theorem propagate_ok_gap (gt_labels gt_tokens ocr_tokens : List Str)
    (gap : Char) (use_anchor : Bool) (r : List Str × Str × Str × Char)
    (h : _propagate_label_to_ocr gt_labels gt_tokens ocr_tokens gap use_anchor = .ok r) :
    r.2.2.2 = gap := by
  unfold _propagate_label_to_ocr at h
  by_cases h1 : gt_tokens.length ≠ gt_labels.length
  · rw [if_pos h1] at h; simp at h
  · rw [if_neg h1] at h
    cases hv : validateTokens (gt_tokens ++ ocr_tokens) gap with
    | some e => rw [hv] at h; simp at h
    | none =>
      rw [hv] at h
      cases ha : (if use_anchor then
          align_w_anchor (join_tokens gt_tokens) (join_tokens ocr_tokens) gap
            MAX_ALIGN_SEGMENT_LENGTH
        else align (join_tokens gt_tokens) (join_tokens ocr_tokens) gap) with
      | error e => rw [ha] at h; simp at h
      | ok aligned =>
        rw [ha] at h
        exact propagateAligned_ok_gap gt_labels gt_tokens gap aligned r h

theorem chooseGapChar_not_in (gt_tokens ocr_tokens : List Str)
    (h : (_find_gap_char_candidates gt_tokens ocr_tokens).1 ≠ []) :
    chooseGapChar (_find_gap_char_candidates gt_tokens ocr_tokens).1 ∉
      inputAlphabet gt_tokens ocr_tokens := by
  unfold _find_gap_char_candidates at h ⊢
  unfold chooseGapChar
  by_cases hg : GAP_CHAR ∈ GAP_CHAR_SET.filter
      (fun c => c ∉ inputAlphabet gt_tokens ocr_tokens)
  · rw [if_pos hg]
    have := List.mem_filter.mp hg
    simpa using this.2
  · rw [if_neg hg]
    have hmem : (GAP_CHAR_SET.filter
        (fun c => c ∉ inputAlphabet gt_tokens ocr_tokens)).headD GAP_CHAR ∈
        GAP_CHAR_SET.filter (fun c => c ∉ inputAlphabet gt_tokens ocr_tokens) := by
      cases hc : GAP_CHAR_SET.filter (fun c => c ∉ inputAlphabet gt_tokens ocr_tokens) with
      | nil => exact absurd hc h
      | cons x xs => exact List.mem_cons_self x xs
    exact of_decide_eq_true (List.mem_filter.mp hmem).2

/-! ## Lemmas about naive label propagation (STEP 1) -/

theorem propagateStep1_all_mapped (gt_labels : List Str) :
    ∀ n2g : List (List Nat), (∀ rel ∈ n2g, rel ≠ []) →
      (propagateStep1 gt_labels n2g).length = n2g.length ∧
      ∀ i, i < n2g.length →
        (propagateStep1 gt_labels n2g).getD i [] =
          gt_labels.getD (_select_from_multiple_ner_labels (n2g.getD i [])) [] := by
  intro n2g
  induction n2g with
  | nil => intro _; exact ⟨rfl, fun i hi => absurd hi (by simp)⟩
  | cons rel rest ih =>
    intro h
    have hrel : rel ≠ [] := h rel (List.mem_cons_self rel rest)
    have hrest := ih (fun r hr => h r (List.mem_cons_of_mem rel hr))
    constructor
    · simp only [propagateStep1, if_pos hrel, List.length_cons]
      omega
    · intro i hi
      simp only [propagateStep1, if_pos hrel]
      cases i with
      | zero => rfl
      | succ i =>
        simp only [List.getD_cons_succ]
        exact hrest.2 i (by simpa using hi)

theorem applyInside_length (labels : List Str) (i : Nat) :
    (applyInside labels i).length = labels.length := by
  simp [applyInside]

theorem foldl_applyInside_length (idxs : List Nat) :
    ∀ labels : List Str, (idxs.foldl applyInside labels).length = labels.length := by
  induction idxs with
  | nil => intro labels; rfl
  | cons i rest ih =>
    intro labels
    simp only [List.foldl_cons]
    rw [ih, applyInside_length]

theorem propagateStep2a_length (gt_labels : List Str) (gt_to_ocr : List (List Nat))
    (ocr_labels : List Str) :
    (propagateStep2a gt_labels gt_to_ocr ocr_labels).length = ocr_labels.length := by
  unfold propagateStep2a
  generalize gt_to_ocr.enum = l
  induction l generalizing ocr_labels with
  | nil => rfl
  | cons p rest ih =>
    simp only [List.foldl_cons]
    split
    · rw [ih, foldl_applyInside_length]
    · rw [ih]

/-! ## Claim theorems -/

set_option maxRecDepth 40000

/-- C1 (amended): on non-empty inputs, `align` returns the first DP candidate
whose re-tokenized aligned reference string - gap characters included, not
de-gapped - has the original reference token count, raising if that candidate's
strings differ in length; every error it raises carries a message naming both
input strings. -/
theorem align_selects_first_gapped_token_count :
    ∀ (gt noise : Str) (gap_char : Char), gt ≠ [] → noise ≠ [] →
    align gt noise gap_char = alignSpecNW gt noise gap_char ∧
    ∀ m, align gt noise gap_char = .error m →
      (∃ u v, m = u ++ gt ++ v) ∧ (∃ u v, m = u ++ noise ++ v) := by
  intro gt noise gap_char h1 h2
  exact ⟨align_eq_alignSpecNW gt noise gap_char h1 h2,
    align_error_names gt noise gap_char h1 h2⟩

/-- Witness for C1 at the concrete non-empty inputs "a" and "b". -/
theorem align_selects_first_gapped_token_count_witness :
    align "a".toList "b".toList GAP_CHAR = alignSpecNW "a".toList "b".toList GAP_CHAR ∧
    ∀ m, align "a".toList "b".toList GAP_CHAR = .error m →
      (∃ u v, m = u ++ "a".toList ++ v) ∧ (∃ u v, m = u ++ "b".toList ++ v) :=
  align_selects_first_gapped_token_count "a".toList "b".toList GAP_CHAR
    (by decide) (by decide)

/-- C1 counterexample: selection is by the token count of the aligned string
with its gap characters, not of the de-gapped string. The candidate below (one
of the DP candidates shown in the repository's own docstring for
"Boston is big " vs "B oston bi g") has de-gapped token count 3, so the claimed
rule would select it, yet `_select_alignment_candidates` rejects it (its gapped
token count is 4) and raises. -/
theorem align_degapped_selection_cex :
    (tokenize (degapped "B@oston is big @".toList GAP_CHAR)).length = 3 ∧
    (tokenize "B@oston is big @".toList).length = 4 ∧
    _select_alignment_candidates
      [("B@oston is big @".toList, "B oston @@@bi@ g".toList)] 3 =
      .error (noCandidatesMsg 3 1) := ⟨by decide, by decide, rfl⟩

/-- C2 (amended): the LCS backtrack moves toward the strictly greater neighbour
cell and, when the top and left neighbour cells are equal, prefers the "left"
neighbour, decrementing the second string's index - for every pair of input
strings the source walk equals the walk written with that tie-break. -/
theorem lcs_backtrack_tie_prefers_left :
    ∀ str_m str_n : Str, LCS_get_str str_m str_n = lcsSpecTieLeft str_m str_n := by
  intro s t
  unfold LCS_get_str _find_lcs_str lcsSpecTieLeft
  exact lcs_loop_tie_left_eq s t _ _ _ _ _

/-- C2 counterexample: on "ab" vs "ba" the DP table has a tie at (2,2); the
source walk takes the left neighbour and yields "b", while a walk preferring
the "up" neighbour (the claim's tie-break) yields "a". -/
theorem lcs_backtrack_tie_up_cex :
    LCS_get_str "ab".toList "ba".toList = "b".toList ∧
    lcsClaimTieUp "ab".toList "ba".toList = "a".toList ∧
    "b".toList ≠ "a".toList := ⟨rfl, rfl, by decide⟩

/-- C3 (amended): whenever `align` succeeds the two aligned strings have equal
length; and when additionally the reference is non-empty (or the noise is
empty), the aligned reference re-tokenizes to the original reference token
count. -/
theorem align_success_invariants :
    ∀ (gt noise : Str) (gap_char : Char) (g n : Str),
    align gt noise gap_char = .ok (g, n) →
    g.length = n.length ∧
      ((gt ≠ [] ∨ noise = []) → (tokenize g).length = (tokenize gt).length) :=
  align_ok_props

/-- Witness for C3 at the concrete input pair ("a", "a"). -/
theorem align_success_invariants_witness :
    ("a".toList : Str).length = ("a".toList : Str).length ∧
      (("a".toList : Str) ≠ [] ∨ ("a".toList : Str) = [] →
        (tokenize "a".toList).length = (tokenize "a".toList).length) :=
  align_success_invariants "a".toList "a".toList GAP_CHAR "a".toList "a".toList rfl

/-- C3 counterexample: `align "" "a"` succeeds with `("@", "a")`, whose aligned
reference has 1 token while the original reference has 0. -/
theorem align_empty_gt_token_count_cex :
    align [] "a".toList GAP_CHAR = .ok ("@".toList, "a".toList) ∧
    (tokenize "@".toList).length = 1 ∧ (tokenize ([] : Str)).length = 0 ∧
    (tokenize "@".toList).length ≠ (tokenize ([] : Str)).length :=
  ⟨rfl, by decide, by decide, by decide⟩

/-- C4 (amended): label propagation on reference tokens ["New", "York"] with
labels ["B-PLACE", "I-PLACE"] against noisy tokens ["N", "ewYork"] returns the
noisy-label list ["B-PLACE", "I-PLACE"] (one label per noisy token). -/
theorem label_propagation_split_token_labels :
    propagate_label_to_ocr ["B-PLACE".toList, "I-PLACE".toList]
      ["New".toList, "York".toList] ["N".toList, "ewYork".toList] true =
      .ok (["B-PLACE".toList, "I-PLACE".toList],
        "N@ew York".toList, "N ew@York".toList, GAP_CHAR) := rfl

/-- C4 counterexample: the run returns two labels, not the claimed three-label
list (which cannot label the two noisy tokens positionally at all). -/
theorem label_propagation_split_token_labels_cex :
    propagate_label_to_ocr ["B-PLACE".toList, "I-PLACE".toList]
      ["New".toList, "York".toList] ["N".toList, "ewYork".toList] true =
      .ok (["B-PLACE".toList, "I-PLACE".toList],
        "N@ew York".toList, "N ew@York".toList, GAP_CHAR) ∧
    ["B-PLACE".toList, "I-PLACE".toList] ≠
      ["B-PLACE".toList, "I-PLACE".toList, "I-PLACE".toList] := ⟨rfl, by decide⟩

/-- C5: label propagation on reference tokens ["This", "is", "home"] with
labels ["O", "O", "B-PLACE"] against noisy tokens ["Th", "isis", "ho", "me"]
returns ["O", "O", "B-PLACE", "I-PLACE"]. -/
theorem label_propagation_orphan_inside_repair :
    propagate_label_to_ocr ["O".toList, "O".toList, "B-PLACE".toList]
      ["This".toList, "is".toList, "home".toList]
      ["Th".toList, "isis".toList, "ho".toList, "me".toList] true =
      .ok (["O".toList, "O".toList, "B-PLACE".toList, "I-PLACE".toList],
        "Th@is is ho@me".toList, "Th is@is ho me".toList, GAP_CHAR) := rfl

/-- C6: if the two anchor maps have different lengths, `find_anchor_recur`
fails immediately with the mismatch error; and with no common unique words
`get_anchor_map` returns two empty lists and `find_anchor_recur` returns two
empty lists rather than an error. -/
theorem anchor_count_mismatch_and_empty_behavior :
    ∀ (fuel : Nat) (gt_tokens ocr_tokens : List Str)
      (start_pos_gt start_pos_ocr max_seg_length : Nat),
    ((get_anchor_map gt_tokens ocr_tokens 2).1.length ≠
        (get_anchor_map gt_tokens ocr_tokens 2).2.length →
      find_anchor_recur (fuel+1) gt_tokens ocr_tokens start_pos_gt start_pos_ocr
        max_seg_length = .error anchorMismatchMsg) ∧
    (commonUniqueWords gt_tokens ocr_tokens = [] →
      get_anchor_map gt_tokens ocr_tokens 2 = ([], []) ∧
      find_anchor_recur (fuel+1) gt_tokens ocr_tokens start_pos_gt start_pos_ocr
        max_seg_length = .ok ([], [])) := by
  intro fuel gt ocr sg so msl
  constructor
  · intro h
    simp [find_anchor_recur, h]
  · intro h
    have hmap : get_anchor_map gt ocr 2 = ([], []) := by
      simp [get_anchor_map, h]
    refine ⟨hmap, ?_⟩
    simp [find_anchor_recur, hmap]

/-- C7 (amended): `propagate_label_to_ocr` raises the distinct gap-character
error if and only if every character of the candidate set `GAP_CHAR_SET` -
the printable non-whitespace characters except the single quote - occurs in the
combined input; otherwise it aligns with a gap character absent from both
inputs, preferring the default when available, and reports that character on
success. -/
theorem gap_char_exhaustion_iff :
    ∀ (gt_labels gt_tokens ocr_tokens : List Str) (use_anchor : Bool),
    ((∀ c ∈ GAP_CHAR_SET, c ∈ inputAlphabet gt_tokens ocr_tokens) ↔
      ∃ m, propagate_label_to_ocr gt_labels gt_tokens ocr_tokens use_anchor =
        .error (.gapCharError m)) ∧
    ((∃ c ∈ GAP_CHAR_SET, c ∉ inputAlphabet gt_tokens ocr_tokens) →
      chooseGapChar (_find_gap_char_candidates gt_tokens ocr_tokens).1 ∉
        inputAlphabet gt_tokens ocr_tokens ∧
      (GAP_CHAR ∉ inputAlphabet gt_tokens ocr_tokens →
        chooseGapChar (_find_gap_char_candidates gt_tokens ocr_tokens).1 = GAP_CHAR) ∧
      ∀ r, propagate_label_to_ocr gt_labels gt_tokens ocr_tokens use_anchor = .ok r →
        r.2.2.2 = chooseGapChar (_find_gap_char_candidates gt_tokens ocr_tokens).1) := by
  intro gl gt ocr ua
  have hiff : (_find_gap_char_candidates gt ocr).1 = [] ↔
      ∀ c ∈ GAP_CHAR_SET, c ∈ inputAlphabet gt ocr := by
    unfold _find_gap_char_candidates
    simp [List.filter_eq_nil_iff]
  constructor
  · constructor
    · intro hall
      refine ⟨gapExhaustedMsg (_find_gap_char_candidates gt ocr).2, ?_⟩
      unfold propagate_label_to_ocr
      rw [if_pos (hiff.mpr hall)]
    · rintro ⟨m, hm⟩
      by_contra hnot
      push_neg at hnot
      obtain ⟨c, hc1, hc2⟩ := hnot
      have hne : (_find_gap_char_candidates gt ocr).1 ≠ [] := by
        intro heq; exact hc2 (hiff.mp heq c hc1)
      unfold propagate_label_to_ocr at hm
      rw [if_neg hne] at hm
      exact propagate_no_gapCharError gl gt ocr _ ua
        (chooseGapChar_not_in gt ocr hne) m hm
  · rintro ⟨c, hc1, hc2⟩
    have hne : (_find_gap_char_candidates gt ocr).1 ≠ [] := by
      unfold _find_gap_char_candidates
      exact List.ne_nil_of_mem (List.mem_filter.mpr ⟨hc1, by simpa using hc2⟩)
    refine ⟨chooseGapChar_not_in gt ocr hne, ?_, ?_⟩
    · intro hg
      unfold chooseGapChar _find_gap_char_candidates
      rw [if_pos (List.mem_filter.mpr ⟨by decide, by simpa using hg⟩)]
    · intro r hr
      unfold propagate_label_to_ocr at hr
      rw [if_neg hne] at hr
      exact propagate_ok_gap gl gt ocr _ ua r hr

/-- C7 counterexample: with both token streams equal to the 93-character
candidate set `GAP_CHAR_SET` itself, the exhaustion error is raised even though
the single-quote character - printable and non-whitespace - does not occur in
the input, refuting the claim that the candidate set is all printable
non-whitespace characters. -/
theorem gap_char_exhaustion_quote_cex :
    propagate_label_to_ocr ["O".toList] [GAP_CHAR_SET] [GAP_CHAR_SET] true =
      .error (.gapCharError (gapExhaustedMsg (inputAlphabet [GAP_CHAR_SET] [GAP_CHAR_SET]))) ∧
    printableNonWs sqc = true ∧
    sqc ∉ inputAlphabet [GAP_CHAR_SET] [GAP_CHAR_SET] := ⟨rfl, by decide, by decide⟩

/-- C8 (amended): for every pair on which `align` succeeds with a non-empty
reference (or empty noise), re-parsing the aligned pair succeeds - the parser's
unequal-length check cannot fire - and the reference-side mapping has exactly
the original reference token count, so the downstream mapping-length check
cannot fire either. -/
theorem align_roundtrip_parse_ok :
    ∀ (gt noise : Str) (gap_char : Char) (g n : Str),
    align gt noise gap_char = .ok (g, n) → (gt ≠ [] ∨ noise = []) →
    ∃ m1 m2, parse_alignment g n gap_char = .ok (m1, m2) ∧
      m1.length = (tokenize gt).length ∧ m2.length = (tokenize n).length := by
  intro gt noise gap_char g n h hc
  obtain ⟨hlen, htok⟩ := align_ok_props gt noise gap_char g n h
  obtain ⟨m1, m2, hp, h1, h2⟩ := parse_alignment_ok g n gap_char hlen
  exact ⟨m1, m2, hp, by rw [h1, htok hc], h2⟩

/-- Witness for C8 at the concrete input pair ("a", "a"). -/
theorem align_roundtrip_parse_ok_witness :
    ∃ m1 m2, parse_alignment "a".toList "a".toList GAP_CHAR = .ok (m1, m2) ∧
      m1.length = (tokenize "a".toList).length ∧
      m2.length = (tokenize "a".toList).length :=
  align_roundtrip_parse_ok "a".toList "a".toList GAP_CHAR "a".toList "a".toList
    rfl (Or.inl (by decide))

/-- C8 counterexample: `align "" "a"` succeeds with `("@", "a")`, and parsing
that pair yields a reference-side mapping of length 1 while the original
reference has 0 tokens, so the downstream mapping-length invariant check
fires. -/
theorem align_roundtrip_empty_gt_cex :
    align [] "a".toList GAP_CHAR = .ok ("@".toList, "a".toList) ∧
    parse_alignment "@".toList "a".toList GAP_CHAR = .ok ([[]], [[]]) ∧
    ([([] : List Nat)]).length ≠ (tokenize ([] : Str)).length :=
  ⟨rfl, rfl, by decide⟩

/-- C9: when every noisy token has at least one mapped reference token and the
mapping's indices are in range, naive propagation produces exactly one label
per noisy token, entry i being the label of the first reference token mapped to
noisy token i; every index the trailing-tag correction can write is a valid
index of that list, and the correction step preserves its length. -/
theorem propagate_step_indices_safe :
    ∀ (gt_labels : List Str) (g2n n2g : List (List Nat)),
    (∀ rel ∈ n2g, rel ≠ []) →
    (∀ rel ∈ g2n, ∀ i ∈ rel, i < n2g.length) →
    (propagateStep1 gt_labels n2g).length = n2g.length ∧
    (∀ i, i < n2g.length →
      (propagateStep1 gt_labels n2g).getD i [] =
        gt_labels.getD (_select_from_multiple_ner_labels (n2g.getD i [])) []) ∧
    (∀ rel ∈ g2n, ∀ i ∈ rel, i < (propagateStep1 gt_labels n2g).length) ∧
    (propagateStep2a gt_labels g2n (propagateStep1 gt_labels n2g)).length = n2g.length := by
  intro gl g2n n2g h1 h2
  obtain ⟨hlen, hval⟩ := propagateStep1_all_mapped gl n2g h1
  refine ⟨hlen, hval, ?_, ?_⟩
  · intro rel hr i hi
    rw [hlen]; exact h2 rel hr i hi
  · rw [propagateStep2a_length, hlen]

/-- Witness for C9 at a concrete mapping: both noisy tokens mapped, the first
reference token mapped to both noisy tokens. -/
theorem propagate_step_indices_safe_witness :
    (propagateStep1 ["B-PLACE".toList] [[0], [0]]).length =
      ([[0], [0]] : List (List Nat)).length ∧
    (∀ i, i < ([[0], [0]] : List (List Nat)).length →
      (propagateStep1 ["B-PLACE".toList] [[0], [0]]).getD i [] =
        (["B-PLACE".toList] : List Str).getD
          (_select_from_multiple_ner_labels (([[0], [0]] : List (List Nat)).getD i [])) []) ∧
    (∀ rel ∈ ([[0, 1]] : List (List Nat)), ∀ i ∈ rel,
      i < (propagateStep1 ["B-PLACE".toList] [[0], [0]]).length) ∧
    (propagateStep2a ["B-PLACE".toList] [[0, 1]]
        (propagateStep1 ["B-PLACE".toList] [[0], [0]])).length =
      ([[0], [0]] : List (List Nat)).length :=
  propagate_step_indices_safe ["B-PLACE".toList] [[0, 1]] [[0], [0]]
    (by decide) (by decide)

/-- C10: `get_anchor_map` returns the same pair of anchor maps for every value
of `min_anchor_len` as for the default value 2, and in particular the
single-character token "a" common to both streams is returned as an anchor
whatever `min_anchor_len` is. -/
theorem anchor_map_ignores_min_anchor_len :
    ∀ (gt_tokens ocr_tokens : List Str) (min_anchor_len : Nat),
    get_anchor_map gt_tokens ocr_tokens min_anchor_len =
      get_anchor_map gt_tokens ocr_tokens 2 ∧
    get_anchor_map [['a']] [['a']] min_anchor_len = ([(['a'], 0)], [(['a'], 0)]) :=
  fun _ _ _ => ⟨rfl, rfl⟩
